import Mathlib

/-!
Verification of the shopping price-aggregation pipeline
(`shopping_api.py`, `server_scraper.py`, `scraper.py`).

Strings are modelled as `List Char`; Python floats are modelled as `ℚ`
(price strings denote exact decimals, and every comparison the code makes
on them is order-compatible with the rationals they denote); the
Python float infinity sentinel is the `none` of an `Option ℚ`; fallible
operations return `Option`.  External collaborators (HTTP transport,
`urlparse`/`parse_qs`, BeautifulSoup documents, the on-disk results
store, wall-clock time) enter as explicit parameters of the embedded
functions, exactly at the call boundaries the Python code uses them.
-/

namespace ShopSpec

/-! ## Python string helpers -/

/-- Whitespace as the Python `\s` class and `str.strip` see it (ASCII range). -/
def pySpace (c : Char) : Bool :=
  c = ' ' || c = '\t' || c = '\n' || c = '\r' || c = '\x0b' || c = '\x0c'

/-- Lower-casing of the characters that actually occur in the embedded
string constants (`str.lower` / `re.IGNORECASE` restricted to them). -/
def pyLowerC (c : Char) : Char :=
  if c = 'À' then 'à' else c.toLower

/-- Python `str.strip()`: drop whitespace from both ends. -/
def pyStrip (l : List Char) : List Char :=
  ((l.dropWhile pySpace).reverse.dropWhile pySpace).reverse

/-! ## PriceNormalizer — `ServerScraper._format_price` (server_scraper.py 325-362) -/

/-- Scanner for `re.sub(r"(R\$|\$|€|£)\s*", "", s)`: delete every currency
symbol together with the whitespace run following it.  The flag records
that the scanner sits right after a deleted symbol and is still consuming
that run. -/
def scAux : Bool → List Char → List Char
  | _, [] => []
  | _, 'R' :: '$' :: rest => scAux true rest
  | skip, c :: rest =>
    if skip && pySpace c then scAux true rest
    else if c = '€' || c = '£' || c = '$' then scAux true rest
    else c :: scAux false rest

def stripCurrency (l : List Char) : List Char := scAux false l

/-- Qualifier phrases of `re.split(r"\s+(a partir de|à vista|no pix)", s, re.IGNORECASE)`. -/
def qualPhrases : List (List Char) :=
  [("a partir de".data), ("à vista".data), ("no pix".data)]

/-- Case-insensitive "is a leading part of". -/
def ciLeads : List Char → List Char → Bool
  | [], _ => true
  | _ :: _, [] => false
  | p :: ps, c :: cs => (pyLowerC p == pyLowerC c) && ciLeads ps cs

/-- Does a match of `\s+(a partir de|à vista|no pix)` start at the head of
`l`?  Since no phrase starts with whitespace, the phrase can only begin
right after the maximal whitespace run. -/
def qualAt (l : List Char) : Bool :=
  match l with
  | [] => false
  | c :: _ =>
    pySpace c && qualPhrases.any (fun ph => ciLeads ph (l.dropWhile pySpace))

/-- Everything before the first qualifier match — `re.split(...)[0]`. -/
def splitQualifier : List Char → List Char
  | [] => []
  | c :: rest => if qualAt (c :: rest) then [] else c :: splitQualifier rest

/-- The separator (`,` or `.`) occurring last in the string, if any:
decides the branch on `rfind(",")` vs `rfind(".")`. -/
def lastSep (l : List Char) : Option Char :=
  l.reverse.find? (fun c => c = ',' || c = '.')

/-- Branch on the decimal separator:
`,` last: `replace(".", "").replace(",", ".")` (note: every comma);
otherwise: `replace(",", "")`. -/
def sepNormalize (l : List Char) : List Char :=
  match lastSep l with
  | some ',' => (l.filter (fun c => !(c = '.'))).map (fun c => if c = ',' then '.' else c)
  | _ => l.filter (fun c => !(c = ','))

/-- Decimal digits of a numeral read left to right. -/
def digitsToNat (l : List Char) : Nat :=
  l.foldl (fun n c => 10 * n + (c.toNat - 48)) 0

/-- Python `float(s)` on a string of digits and periods: defined exactly
when at most one period and at least one digit are present; the value is
the decimal it spells. -/
def parseDecimal (l : List Char) : Option ℚ :=
  if l.all (fun c => c.isDigit || c = '.') ∧ l.count '.' ≤ 1 ∧ l.any (fun c => c.isDigit) then
    let ip := l.takeWhile (fun c => !(c = '.'))
    let fp := (l.dropWhile (fun c => !(c = '.'))).drop 1
    some (mkRat (Int.ofNat (digitsToNat ip * 10 ^ fp.length + digitsToNat fp)) (10 ^ fp.length))
  else none

/-- `ServerScraper._format_price`: strip currency symbols, truncate at the
first qualifier phrase, disambiguate the separators by their last
occurrences, keep digits and periods, parse; `none` on empty input and on
every parse failure (the code catches all exceptions and returns None). -/
def formatPrice (l : List Char) : Option ℚ :=
  if l = [] then none
  else
    let s4 := sepNormalize (splitQualifier (pyStrip (stripCurrency l)))
    let s5 := s4.filter (fun c => c.isDigit || c = '.')
    if s5 = [] then none else parseDecimal s5

/-! ## PriceNormalizer — `ProductScraper.format_price` (scraper.py 61-74) -/

/-- `ProductScraper.format_price`: keep digits and commas, turn every
comma into a period, `float(...)`, None on ValueError. -/
def formatPriceSimple (l : List Char) : Option ℚ :=
  if l = [] then none
  else
    parseDecimal ((l.filter (fun c => c.isDigit || c = ',')).map
      (fun c => if c = ',' then '.' else c))

/-- Modelled from the spec: §4.1 step 4 first bullet says of the
comma-decimal case "remove all periods, replace the last comma with a
period" (the code instead replaces every comma); remaining commas are then
dropped by the step-5 strip of non-digit, non-period characters.  Only this
separator step differs from `sepNormalize`. -/
def replaceFirstComma : List Char → List Char
  | [] => []
  | c :: rest => if c = ',' then '.' :: rest else c :: replaceFirstComma rest

def replaceLastComma (l : List Char) : List Char :=
  (replaceFirstComma l.reverse).reverse

/-- Modelled from the spec: the §4.1 normalizer with the very
"replace the last comma" separator rule, otherwise the same pipeline. -/
def specNormalize (l : List Char) : Option ℚ :=
  if l = [] then none
  else
    let s3 := splitQualifier (pyStrip (stripCurrency l))
    let s4 :=
      match lastSep s3 with
      | some ',' => replaceLastComma (s3.filter (fun c => !(c = '.')))
      | _ => s3.filter (fun c => !(c = ','))
    let s5 := s4.filter (fun c => c.isDigit || c = '.')
    if s5 = [] then none else parseDecimal s5

/-! ## Kernel-computable rational arithmetic

Batteries marks `Rat.add`, `Rat.sub`, `Rat.mul` and `Rat.inv` irreducible,
so the embedding performs the float arithmetic of the Python code through
`mkRat`; `qsub_eq_sub`, `qmul_eq_mul` and `qdiv_eq_div` below prove these
are exactly subtraction, multiplication and division on ℚ. -/

def qsub (a b : ℚ) : ℚ := mkRat (a.num * (b.den : Int) - b.num * (a.den : Int)) (a.den * b.den)

def qmul (a b : ℚ) : ℚ := mkRat (a.num * b.num) (a.den * b.den)

def qinv (a : ℚ) : ℚ :=
  if a.num < 0 then mkRat (-(a.den : Int)) a.num.natAbs else mkRat ((a.den : Int)) a.num.natAbs

def qdiv (a b : ℚ) : ℚ := qmul a (qinv b)

/-! ## AggregationEngine — `ShoppingAPI` (shopping_api.py 81-181) -/

/-- Scraped candidate record `{nome, preco, link, site}` as produced by the
scrapers (a candidate enters the result list only with a parsed price). -/
structure Product where
  nome : List Char
  preco : ℚ
  link : Option (List Char)
  site : List Char
deriving DecidableEq

/-- Per-source best deal after `_find_best_deals` attached its cart link. -/
structure Deal where
  nome : List Char
  preco : ℚ
  link : Option (List Char)
  site : List Char
  cartLink : Option (List Char)
deriving DecidableEq

def gsSite : List Char := "Google Shopping".data
def mlSite : List Char := "Mercado Livre".data
def kbSite : List Char := "Kabum".data

/-- Python `min(l, key=f)`: the scan keeps the current element on ties, so
the first minimal element wins; `None`-free and total on nonempty lists. -/
def pyMinBy (f : α → ℚ) : List α → Option α
  | [] => none
  | x :: xs => some (xs.foldl (fun b y => if f y < f b then y else b) x)

/-- `ProductScraper.get_cart_link` (scraper.py 233-250): `None` for a falsy
link, otherwise the product link itself for every site. -/
def getCartLink : Option (List Char) → List Char → Option (List Char)
  | none, _ => none
  | some l, _ => if l = [] then none else some l

/-- The mutation `best_deal["cart_link"] = scraper.get_cart_link(...)`. -/
def dealOf (p : Product) : Deal :=
  ⟨p.nome, p.preco, p.link, p.site, getCartLink p.link p.site⟩

/-- The `best_deals` dictionary of `_find_best_deals`. -/
structure BestDeals where
  googleShopping : Option Deal
  mercadoLivre : Option Deal
  kabum : Option Deal
  melhorOferta : Option Deal
deriving DecidableEq

/-- Cheapest candidate of one site, with the cart link attached. -/
def bestFor (rs : List Product) (site : List Char) : Option Deal :=
  (pyMinBy (fun p => p.preco) (rs.filter (fun r => r.site = site))).map dealOf

/-- `ShoppingAPI._find_best_deals` (shopping_api.py 81-116): per-site
minimum, then the overall minimum over the non-`None` deals taken in the
configured order Google Shopping, Mercado Livre, Kabum. -/
def findBestDeals (rs : List Product) : BestDeals :=
  let g := bestFor rs gsSite
  let m := bestFor rs mlSite
  let k := bestFor rs kbSite
  ⟨g, m, k, pyMinBy (fun d => d.preco) ([g, m, k].filterMap id)⟩

/-- One entry of `output["results"]`: `preco_valor = none` stands for the
sentinel float infinity of a site without an offer (the presentation
strings `preco`/`"N/A"` are rendering of these fields and are not
modelled). -/
structure SiteEntry where
  nome : List Char
  precoValor : Option ℚ
  link : Option (List Char)
  cartLink : Option (List Char)
deriving DecidableEq

/-- The `"Nenhum produto encontrado"` placeholder entry. -/
def sentinelEntry : SiteEntry :=
  ⟨("Nenhum produto encontrado".data), none, none, none⟩

def entryOf : Option Deal → SiteEntry
  | some d => ⟨d.nome, some d.preco, d.link, d.cartLink⟩
  | none => sentinelEntry

/-- Result of `_calculate_savings`: either the string
`"Único preço disponível"` or the rendered pair (savings, percentage) of
`"Economia de R$ {savings} ({percent}%)"`. -/
inductive Savings where
  | unique : Savings
  | economy : ℚ → ℚ → Savings
deriving DecidableEq

/-- `ShoppingAPI._calculate_savings` (shopping_api.py 118-136): collect the
`preco_valor` entries that are not `inf` and strictly above the best
price; empty collection means the single-offer message, otherwise the
savings against their minimum. -/
def calculateSavings (bestPrice : ℚ) (entries : List (List Char × SiteEntry)) : Savings :=
  let prices := entries.filterMap
    (fun e => e.2.precoValor.bind (fun p => if bestPrice < p then some p else none))
  match pyMinBy id prices with
  | none => Savings.unique
  | some sb => Savings.economy (qsub sb bestPrice) (qmul (qdiv (qsub sb bestPrice) sb) 100)

/-- The `best_overall` object of `_format_results`. -/
structure BestEntry where
  site : List Char
  nome : List Char
  precoValor : ℚ
  economia : Savings
  link : Option (List Char)
  cartLink : Option (List Char)
deriving DecidableEq

/-- `output` of `_format_results` (the timestamp and the rendered price
strings are presentation and are not modelled). -/
structure FormattedResults where
  query : List Char
  results : List (List Char × SiteEntry)
  bestOverall : Option BestEntry
deriving DecidableEq

/-- `ShoppingAPI._format_results` (shopping_api.py 138-181). -/
def formatResults (bd : BestDeals) (q : List Char) : FormattedResults :=
  let entries := [(gsSite, entryOf bd.googleShopping), (mlSite, entryOf bd.mercadoLivre),
    (kbSite, entryOf bd.kabum)]
  ⟨q, entries, bd.melhorOferta.map
    (fun d => ⟨d.site, d.nome, d.preco, calculateSavings d.preco entries, d.link, d.cartLink⟩)⟩

/-! ## SearchCoordinator — `ShoppingAPI.search_products` (shopping_api.py 28-79)

The per-call state of the API object: the cache dictionary and whether the
single-flight lock is currently held by another in-flight search.  One
call of `search_products` is one `searchStep`; the scraper pipeline the
call would run enters as the `fetch` parameter, wall-clock `time.time()`
as `now`.  The on-disk `_save_results` write is an outbound side channel
and is not part of the state. -/

structure ApiState where
  cache : List (List Char × (ℚ × FormattedResults))
  lockHeld : Bool
deriving DecidableEq

inductive SearchOutcome where
  | invalidQuery : SearchOutcome
  | busy : SearchOutcome
  | success : FormattedResults → SearchOutcome
deriving DecidableEq

structure StepResult where
  outcome : SearchOutcome
  state : ApiState
  fetchCalled : Bool
deriving DecidableEq

/-- The cache key: `query.strip().lower()`. -/
def normKey (q : List Char) : List Char := (pyStrip q).map pyLowerC

/-- Lookup in the cache dictionary (keys are unique). -/
def cacheLookup (cache : List (List Char × (ℚ × FormattedResults))) (key : List Char) :
    Option (ℚ × FormattedResults) :=
  (cache.find? (fun e => e.1 = key)).map (fun e => e.2)

/-- Dictionary overwrite `self.search_cache[cache_key] = (now, results)`
(entry position is unobservable, only the unique-key lookup is). -/
def cacheInsert (cache : List (List Char × (ℚ × FormattedResults))) (key : List Char)
    (v : ℚ × FormattedResults) : List (List Char × (ℚ × FormattedResults)) :=
  (key, v) :: cache.filter (fun e => !(e.1 = key : Bool))

/-- A cache entry younger than the 300 s TTL, if any. -/
def freshHit (cache : List (List Char × (ℚ × FormattedResults))) (key : List Char) (now : ℚ) :
    Option FormattedResults :=
  match cacheLookup cache key with
  | some (t, r) => if qsub now t < 300 then some r else none
  | none => none

/-- `ShoppingAPI.search_products`: blank query raises ValueError before
anything else; a fresh cache hit returns the stored result without
touching the lock; otherwise a held lock raises RuntimeError; otherwise
the scraper pipeline runs, the result is formatted, cached and returned
(the lock is acquired and released within the call). -/
def searchStep (st : ApiState) (query : List Char) (now : ℚ)
    (fetch : List Char → List Product) : StepResult :=
  if pyStrip query = [] then ⟨SearchOutcome.invalidQuery, st, false⟩
  else
    let s := pyStrip query
    let key := s.map pyLowerC
    match freshHit st.cache key now with
    | some r => ⟨SearchOutcome.success r, st, false⟩
    | none =>
      if st.lockHeld then ⟨SearchOutcome.busy, st, false⟩
      else
        let formatted := formatResults (findBestDeals (fetch s)) s
        ⟨SearchOutcome.success formatted, ⟨cacheInsert st.cache key (now, formatted), false⟩, true⟩

/-! ## LinkResolver — `ServerScraper._extract_real_product_link` (server_scraper.py 280-323)

`urlparse`/`parse_qs` of the incoming link are standard-library
parsers; their output on the link enters as a `ParsedLink` (`raw` is the
link string itself, `query` maps each parameter to its first value —
`parse_qs` value lists are never empty).  The redirect-following
`session.head` probe enters as `probe`, `none` standing for the network
failures the code catches. -/

structure ParsedLink where
  raw : List Char
  netloc : List Char
  path : List Char
  query : List (List Char × List Char)
deriving DecidableEq

/-- Netloc extraction of `urllib.parse.urlparse`, as the code applies it
to candidate parameter values: an optional `scheme:` is removed when the
part before the first colon is nonempty and made of scheme characters,
then a netloc exists exactly under a leading `//` and runs to the first
`/`, `?` or `#`. -/
def schemeChar (c : Char) : Bool := c.isAlpha || c.isDigit || c = '+' || c = '-' || c = '.'

def urlNetloc (l : List Char) : List Char :=
  let pre := l.takeWhile (fun c => !(c = ':'))
  let rest := if pre.length < l.length && !pre.isEmpty && pre.all schemeChar then
    (l.drop pre.length).drop 1 else l
  match rest with
  | '/' :: '/' :: r => r.takeWhile (fun c => !(c = '/' || c = '?' || c = '#'))
  | _ => []

/-- The Python substring test `pat in l`. -/
def containsSub (pat : List Char) : List Char → Bool
  | [] => pat.isEmpty
  | c :: rest => pat.isPrefixOf (c :: rest) || containsSub pat rest

def possibleParams : List (List Char) :=
  [("adurl".data), ("url".data), ("q".data), ("imgrefurl".data)]

def qlookup (qs : List (List Char × List Char)) (name : List Char) : Option (List Char) :=
  (qs.find? (fun e => e.1 = name)).map (fun e => e.2)

/-- The acceptance test on a parameter value:
`real_url.startswith(http) and google.com not in urlparse(real_url).netloc`. -/
def paramValueOk (v : List Char) : Bool :=
  (("http".data).isPrefixOf v) && !(containsSub ("google.com".data) (urlNetloc v))

/-- The parameter loop: each of `adurl`, `url`, `q`, `imgrefurl` that is
present is tested, and the first passing value is returned. -/
def paramScan (qs : List (List Char × List Char)) : Option (List Char) :=
  possibleParams.findSome? (fun p =>
    match qlookup qs p with
    | some v => if paramValueOk v then some v else none
    | none => none)

/-- `ServerScraper._extract_real_product_link`: `None` in, `None` out;
then the parameter scan; then, for a `www.google.com` link whose path
contains `/url?` or `/aclk?`, the redirect probe (a probe failure or an
internal final URL falls through); finally the original link. -/
def extractRealProductLink (probe : List Char → Option (List Char)) :
    Option ParsedLink → Option (List Char)
  | none => none
  | some L =>
    match paramScan L.query with
    | some v => some v
    | none =>
      if L.netloc = ("www.google.com".data) ∧
          (containsSub ("/url?".data) L.path = true ∨ containsSub ("/aclk?".data) L.path = true) then
        match probe L.raw with
        | some finalUrl =>
          if ¬ finalUrl = L.raw ∧ containsSub ("google.com".data) (urlNetloc finalUrl) = false then
            some finalUrl
          else some L.raw
        | none => some L.raw
      else some L.raw

/-! ## SourceExtractor — `ServerScraper._extract_google_shopping_products`
(server_scraper.py 188-278)

A BeautifulSoup document is what the code observes of it: `select` on the
document and, per element, `select_one(...).get_text()` and
`select_one(...).get("href")`.  `textOf sel = none` models "no element
matched", `some v` a matched element with text `v`; `attrOf` adds the
`get("href")` layer (`some none` = element without the attribute).  The
link resolution of each candidate calls `_extract_real_product_link` on a
raw URL string through `urlparse`, so it enters here as the injected
`resolve` collaborator. -/

structure Element where
  textOf : List Char → Option (List Char)
  attrOf : List Char → Option (Option (List Char))

structure Document where
  select : List Char → List Element

def containerSelectors : List (List Char) :=
  [("div.sh-dgr__content".data), ("div.sh-dlr__list-result".data),
   ("div.sh-pr__product-results-grid div.sh-pr__product-result".data),
   ("div[data-docid]".data), (".i0X6df".data), (".u30d4".data)]

def nameSelectors : List (List Char) :=
  [("h3.tAxDx".data), ("h4.A2sOrd".data), ("div.aULzUe".data), ("h3".data),
   (".rgHvZc".data), (".EI11Pd".data)]

def priceSelectors : List (List Char) :=
  [("span.a8Pemb".data), ("span.kHxwFf".data), ("span[aria-hidden=\"true\"]".data),
   (".PZPZlf span".data), (".HRLxBb".data)]

def linkSelectors : List (List Char) :=
  [("a.shntl".data), ("a.Lq5OHe".data), ("a[href*=\"shopping\"]".data), ("a".data)]

def namePlaceholder : List Char := "Nome não encontrado".data
def pricePlaceholder : List Char := "Preço não encontrado".data

/-- `_extract_field` without `attribute`: first selector whose element
yields truthy text wins (the text is stripped only after the truthiness
test), otherwise the default. -/
def extractFieldText (e : Element) : List (List Char) → List Char → List Char
  | [], dflt => dflt
  | s :: rest, dflt =>
    match e.textOf s with
    | some (c :: cs) => pyStrip (c :: cs)
    | _ => extractFieldText e rest dflt

/-- `_extract_field` with `attribute="href"` and default `None`. -/
def extractFieldAttr (e : Element) : List (List Char) → Option (List Char)
  | [] => none
  | s :: rest =>
    match e.attrOf s with
    | some (some (c :: cs)) => some (pyStrip (c :: cs))
    | _ => extractFieldAttr e rest

/-- Python `x or y` on link strings (None and "" are falsy). -/
def pyOrLink : Option (List Char) → Option (List Char) → Option (List Char)
  | some (c :: cs), _ => some (c :: cs)
  | _, b => b

/-- The body of the per-container loop: extract the fields, absolutize a
relative link, resolve it, and accept the candidate only under
`if price and name != "Nome não encontrado"` (Python truthiness: a price
of 0.0 is falsy). -/
def processElement (resolve : Option (List Char) → Option (List Char)) (e : Element) :
    Option Product :=
  let name := extractFieldText e nameSelectors namePlaceholder
  let price := formatPrice (extractFieldText e priceSelectors pricePlaceholder)
  let link0 := extractFieldAttr e linkSelectors
  let link :=
    match link0 with
    | some ('/' :: cs) => some (("https://www.google.com".data) ++ ('/' :: cs))
    | other => other
  match price with
  | some q =>
    if ¬ q = 0 ∧ ¬ name = namePlaceholder then
      some ⟨name, q, pyOrLink (resolve link) link, gsSite⟩
    else none
  | none => none

/-- The container cascade with its `for ... else`: the first selector
with a nonempty `soup.select` supplies every container, none matching
means no products. -/
def selectContainers (doc : Document) : List Element :=
  (containerSelectors.findSome? (fun sel =>
    if (doc.select sel).isEmpty then none else some (doc.select sel))).getD []

/-- The extraction loop with its `extracted_count >= max_results` break;
a rejected container contributes nothing and the loop continues. -/
def extractLoop (resolve : Option (List Char) → Option (List Char)) (maxR : Nat) :
    List Element → Nat → List Product
  | [], _ => []
  | e :: rest, count =>
    if maxR ≤ count then []
    else
      match processElement resolve e with
      | some p => p :: extractLoop resolve maxR rest (count + 1)
      | none => extractLoop resolve maxR rest count

/-- `ServerScraper._extract_google_shopping_products`. -/
def extractGoogleProducts (resolve : Option (List Char) → Option (List Char))
    (doc : Document) (maxR : Nat) : List Product :=
  extractLoop resolve maxR (selectContainers doc) 0

/-! ## FetchStrategy — `ServerScraper.search_google_shopping` (server_scraper.py 102-186)

One network attempt is what the `try` block observes of it: an exception
or bad status (`fail`), a body carrying a bot-challenge marker
(`captcha`), or a parsed page (`page doc`, with `render_js` fixed to
`False` the body is `response.text`).  The oracle maps (URL index,
attempt index) to that outcome; the code tries the 3 URLs and
`max_retries = 3` attempts each. -/

inductive AttemptOutcome where
  | fail : AttemptOutcome
  | captcha : AttemptOutcome
  | page : Document → AttemptOutcome

/-- The retry loop of one URL: a failure moves to the next attempt, a
challenge marker breaks out of the attempts (`break`), a page with at
least one extracted product returns `products[:max_results]` at once, a
page with none continues. -/
def runTarget (resolve : Option (List Char) → Option (List Char)) (maxR : Nat)
    (out : Nat → AttemptOutcome) : List Nat → Option (List Product)
  | [] => none
  | a :: rest =>
    match out a with
    | AttemptOutcome.fail => runTarget resolve maxR out rest
    | AttemptOutcome.captcha => none
    | AttemptOutcome.page doc =>
      let ps := extractGoogleProducts resolve doc maxR
      if ps = [] then runTarget resolve maxR out rest else some (ps.take maxR)

/-- The URL loop of `search_google_shopping`. -/
def runUrls (resolve : Option (List Char) → Option (List Char)) (maxR : Nat)
    (oracle : Nat → Nat → AttemptOutcome) : List Nat → Option (List Product)
  | [] => none
  | u :: rest =>
    match runTarget resolve maxR (oracle u) [0, 1, 2] with
    | some r => some r
    | none => runUrls resolve maxR oracle rest

/-- `ServerScraper.search_google_shopping`: the full loop, returning the
(empty) accumulator when every URL and retry is exhausted. -/
def searchGoogleShopping (resolve : Option (List Char) → Option (List Char))
    (oracle : Nat → Nat → AttemptOutcome) (maxR : Nat) : List Product :=
  (runUrls resolve maxR oracle [0, 1, 2]).getD []

/-- Attempts of one URL up to (and not including) its first bot
challenge: the ones whose extraction the control flow can reach. -/
def untilCaptcha : List AttemptOutcome → List AttemptOutcome
  | [] => []
  | AttemptOutcome.captcha :: _ => []
  | AttemptOutcome.fail :: rest => AttemptOutcome.fail :: untilCaptcha rest
  | AttemptOutcome.page doc :: rest => AttemptOutcome.page doc :: untilCaptcha rest

/-- All reachable attempts of a search, in control-flow order. -/
def attemptSeq (oracle : Nat → Nat → AttemptOutcome) : List AttemptOutcome :=
  untilCaptcha ([0, 1, 2].map (oracle 0)) ++ untilCaptcha ([0, 1, 2].map (oracle 1)) ++
    untilCaptcha ([0, 1, 2].map (oracle 2))

/-- The document of a productive attempt: a page whose extraction yields
at least one candidate. -/
def productiveDoc (resolve : Option (List Char) → Option (List Char)) (maxR : Nat) :
    AttemptOutcome → Option Document
  | AttemptOutcome.page doc =>
    if extractGoogleProducts resolve doc maxR = [] then none else some doc
  | _ => none

/-- Declarative reading of the fetch loop: the first productive reachable
first productive attempt, its extraction truncated, else the empty list. -/
def searchGoogleSpec (resolve : Option (List Char) → Option (List Char))
    (oracle : Nat → Nat → AttemptOutcome) (maxR : Nat) : List Product :=
  match (attemptSeq oracle).findSome? (productiveDoc resolve maxR) with
  | some doc => (extractGoogleProducts resolve doc maxR).take maxR
  | none => []

/-! ## Spec-shaped reformulations and concrete inputs used by the claims -/

/-- The predicate "is less than or equal to every element of `l`". -/
def minPred (f : α → ℚ) (l : List α) (y : α) : Bool := l.all (fun z => f y ≤ f z)

/-- Spec-shaped minimum: the first element that attains the minimum, the
tie-breaking §4.5 describes. -/
def firstMinBy (f : α → ℚ) (l : List α) : Option α := l.find? (minPred f l)

/-- Minimum of optional prices, the absent price being `+infinity`. -/
def optMin : Option ℚ → Option ℚ → Option ℚ
  | none, b => b
  | some a, none => some a
  | some a, some b => some (min a b)

/-- The `valid_deals` list of `_find_best_deals`: the per-source best
deals that exist, in configured source order. -/
def validDeals (bd : BestDeals) : List Deal :=
  [bd.googleShopping, bd.mercadoLivre, bd.kabum].filterMap id

/-- The finite per-source best prices of a formatted result. -/
def sitePrices (F : FormattedResults) : List ℚ := F.results.filterMap (fun e => e.2.precoValor)

/-- The runner-up as the code computes it: the least price strictly above
the best one. -/
def minExceeding (l : List ℚ) (bp : ℚ) : Option ℚ := pyMinBy id (l.filter (fun p => bp < p))

/-- Candidates with per-source best prices 100 (Google Shopping) and 80
(Mercado Livre), Kabum empty — the A/B/C instance of §8. -/
def rsTwo : List Product :=
  [⟨("A".data), 100, none, gsSite⟩, ⟨("B".data), 80, none, mlSite⟩]

/-- Candidates whose two per-source best prices tie at 80. -/
def rsTie : List Product :=
  [⟨("P1".data), 80, none, gsSite⟩, ⟨("P2".data), 80, none, mlSite⟩]

/-- The best-overall entry `formatResults` builds for `rsTwo`. -/
def bestTwo : BestEntry :=
  ⟨mlSite, ("B".data), 80, Savings.economy 20 20, none, none⟩

/-- A parsed Google indirection link whose `adurl` parameter carries
`https://images.google.com/x`. -/
def linkImages : ParsedLink :=
  ⟨("https://www.google.com/url?adurl=https://images.google.com/x".data),
    ("www.google.com".data), ("/url".data),
    [(("adurl".data), ("https://images.google.com/x".data))]⟩

/-- An API state with a fresh cache entry for `tv` while another search
holds the single-flight lock. -/
def stBusyHit : ApiState :=
  ⟨[(("tv".data), (0, formatResults (findBestDeals []) ("tv".data)))], true⟩

/-! ## Helper lemmas -/

theorem find_congr_all (p q : α → Bool) (h : ∀ a, p a = q a) (l : List α) :
    l.find? p = l.find? q := by
  have hpq : p = q := funext h
  rw [hpq]

/-- Folding the Python `min` step once more keeps the first minimum. -/
theorem firstMinBy_interchange (f : α → ℚ) (x y : α) (ys : List α) :
    firstMinBy f ((if f y < f x then y else x) :: ys) = firstMinBy f (x :: y :: ys) := by
  by_cases h : f y < f x
  · rw [if_pos h]
    unfold firstMinBy
    have hr : List.find? (minPred f (x :: y :: ys)) (x :: y :: ys)
        = List.find? (minPred f (x :: y :: ys)) (y :: ys) := by
      apply List.find?_cons_of_neg
      simp only [minPred, List.all_cons, Bool.and_eq_true, decide_eq_true_eq]
      intro hc
      exact absurd hc.2.1 (not_le.mpr h)
    rw [hr]
    apply find_congr_all
    intro z
    simp only [minPred, List.all_cons, Bool.and_assoc]
    by_cases hzy : f z ≤ f y
    · have hzx : f z ≤ f x := le_of_lt (lt_of_le_of_lt hzy h)
      simp [hzy, hzx]
    · simp [hzy]
  · rw [if_neg h]
    have hxy : f x ≤ f y := le_of_not_lt h
    unfold firstMinBy
    have hheads : minPred f (x :: ys) x = minPred f (x :: y :: ys) x := by
      simp only [minPred, List.all_cons, Bool.and_assoc]
      simp [le_refl, hxy]
    by_cases hx : minPred f (x :: ys) x = true
    · rw [List.find?_cons_of_pos _ hx, List.find?_cons_of_pos _ (hheads ▸ hx)]
    · have hl : List.find? (minPred f (x :: ys)) (x :: ys)
          = List.find? (minPred f (x :: ys)) ys := List.find?_cons_of_neg _ hx
      have hr1 : List.find? (minPred f (x :: y :: ys)) (x :: y :: ys)
          = List.find? (minPred f (x :: y :: ys)) (y :: ys) :=
        List.find?_cons_of_neg _ (by rw [← hheads]; exact hx)
      have hy2 : ¬ minPred f (x :: y :: ys) y = true := by
        by_cases hyx : f y ≤ f x
        · have heq : f x = f y := le_antisymm hxy hyx
          simp only [minPred, List.all_cons, Bool.and_assoc, ← heq] at hx ⊢
          simpa [le_refl] using hx
        · simp only [minPred, List.all_cons, Bool.and_assoc, Bool.and_eq_true,
            decide_eq_true_eq]
          intro hc
          exact hyx hc.1
      have hr2 : List.find? (minPred f (x :: y :: ys)) (y :: ys)
          = List.find? (minPred f (x :: y :: ys)) ys := List.find?_cons_of_neg _ hy2
      rw [hl, hr1, hr2]
      apply find_congr_all
      intro z
      simp only [minPred, List.all_cons, Bool.and_assoc]
      by_cases hzx : f z ≤ f x
      · have hzy : f z ≤ f y := le_trans hzx hxy
        simp [hzx, hzy]
      · simp [hzx]

/-- Python `min(l, key=f)` returns the first element attaining the
minimum. -/
theorem pyMinBy_eq_firstMinBy (f : α → ℚ) (l : List α) : pyMinBy f l = firstMinBy f l := by
  cases l with
  | nil => rfl
  | cons x xs =>
    show some (xs.foldl (fun b y => if f y < f b then y else b) x) = _
    induction xs generalizing x with
    | nil => simp [firstMinBy, minPred, List.find?, le_refl]
    | cons y ys ih =>
      rw [List.foldl_cons]
      rw [ih (if f y < f x then y else x)]
      exact firstMinBy_interchange f x y ys

theorem pyMinBy_eq_none (f : α → ℚ) (l : List α) : pyMinBy f l = none ↔ l = [] := by
  cases l <;> simp [pyMinBy]

theorem pyMinBy_mem (f : α → ℚ) (l : List α) (x : α) (h : pyMinBy f l = some x) : x ∈ l := by
  rw [pyMinBy_eq_firstMinBy] at h
  exact List.mem_of_find?_eq_some h

/-- The overall minimum over the three per-source options is the minimum
of their prices with the absent price read as `+infinity`. -/
theorem agg_min_core (g m k : Option Deal) :
    (pyMinBy (fun d => d.preco) ([g, m, k].filterMap id) = none
      ↔ g = none ∧ m = none ∧ k = none)
    ∧ ∀ d, pyMinBy (fun d => d.preco) ([g, m, k].filterMap id) = some d →
        some d.preco = optMin (g.map (fun x => x.preco))
          (optMin (m.map (fun x => x.preco)) (optMin (k.map (fun x => x.preco)) none)) := by
  rcases g with _ | a <;> rcases m with _ | b <;> rcases k with _ | c <;>
    simp [pyMinBy, optMin] <;>
    (try (split_ifs <;> simp only [min_def] <;> split_ifs <;> first | rfl | linarith))

theorem entryOf_precoValor (x : Option Deal) :
    (entryOf x).precoValor = x.map (fun d => d.preco) := by
  cases x <;> rfl

/-- The price collection of `_calculate_savings` is the finite per-source
prices filtered to those above the best price. -/
theorem savings_prices_eq (entries : List (List Char × SiteEntry)) (bp : ℚ) :
    entries.filterMap (fun e => e.2.precoValor.bind (fun p => if bp < p then some p else none))
      = (entries.filterMap (fun e => e.2.precoValor)).filter (fun p => bp < p) := by
  induction entries with
  | nil => rfl
  | cons e rest ih =>
    rcases hpv : e.2.precoValor with _ | p
    · simp [List.filterMap_cons, hpv, ih]
    · by_cases hlt : bp < p
      · simp [List.filterMap_cons, hpv, hlt, ih]
      · simp [List.filterMap_cons, hpv, hlt, ih]

/-- Currency stripping deletes characters and never invents one. -/
theorem scAux_subset (b : Bool) (l : List Char) : ∀ c, c ∈ scAux b l → c ∈ l := by
  induction b, l using scAux.induct with
  | case1 x => intro c hc; cases hc
  | case2 x rest ih =>
    intro c hc
    rw [scAux.eq_2] at hc
    exact List.mem_cons_of_mem _ (List.mem_cons_of_mem _ (ih c hc))
  | case3 skip c rest hne hsp ih =>
    intro a ha
    rw [scAux.eq_3 _ _ _ hne, if_pos hsp] at ha
    exact List.mem_cons_of_mem _ (ih a ha)
  | case4 skip c rest hne hsp hcur ih =>
    intro a ha
    rw [scAux.eq_3 _ _ _ hne, if_neg hsp, if_pos hcur] at ha
    exact List.mem_cons_of_mem _ (ih a ha)
  | case5 skip c rest hne hsp hcur ih =>
    intro a ha
    rw [scAux.eq_3 _ _ _ hne, if_neg hsp, if_neg hcur] at ha
    rcases List.mem_cons.mp ha with h | h
    · exact h ▸ List.mem_cons_self _ _
    · exact List.mem_cons_of_mem _ (ih a h)

theorem splitQualifier_subset (l : List Char) : ∀ c, c ∈ splitQualifier l → c ∈ l := by
  induction l with
  | nil => intro c hc; cases hc
  | cons x rest ih =>
    intro c hc
    rw [splitQualifier] at hc
    by_cases hq : qualAt (x :: rest) = true
    · rw [if_pos hq] at hc; cases hc
    · rw [if_neg hq] at hc
      rcases List.mem_cons.mp hc with h | h
      · exact h ▸ List.mem_cons_self _ _
      · exact List.mem_cons_of_mem _ (ih c h)

theorem pyStrip_subset (l : List Char) : ∀ c, c ∈ pyStrip l → c ∈ l := by
  intro c hc
  unfold pyStrip at hc
  rw [List.mem_reverse] at hc
  have h1 := (List.dropWhile_sublist (l := (l.dropWhile pySpace).reverse) pySpace).subset hc
  rw [List.mem_reverse] at h1
  exact (List.dropWhile_sublist pySpace).subset h1

/-- Separator normalization only deletes characters or turns commas into
periods. -/
theorem sepNormalize_chars (l : List Char) : ∀ c, c ∈ sepNormalize l → c ∈ l ∨ c = '.' := by
  intro c hc
  unfold sepNormalize at hc
  split at hc
  · obtain ⟨a, ha, rfl⟩ := List.mem_map.mp hc
    by_cases hacomma : a = ','
    · right; simp [hacomma]
    · left
      rw [if_neg hacomma]
      exact (List.filter_sublist _).subset ha
  · exact Or.inl ((List.filter_sublist _).subset hc)

theorem parseDecimal_no_digit (l : List Char) (h : ∀ c ∈ l, ¬ c.isDigit) :
    parseDecimal l = none := by
  unfold parseDecimal
  rw [if_neg]
  intro hcond
  obtain ⟨c, hc, hdig⟩ := List.any_eq_true.mp hcond.2.2
  exact h c hc hdig

/-- A price text without a digit yields an absent price, never an error. -/
theorem formatPrice_no_digit (l : List Char) (h : ∀ c ∈ l, ¬ c.isDigit) :
    formatPrice l = none := by
  unfold formatPrice
  by_cases hl : l = []
  · rw [if_pos hl]
  · rw [if_neg hl]
    simp only []
    set s4 := sepNormalize (splitQualifier (pyStrip (stripCurrency l))) with hs4
    set s5 := s4.filter (fun c => c.isDigit || c = '.') with hs5
    by_cases h5 : s5 = []
    · rw [if_pos h5]
    · rw [if_neg h5]
      apply parseDecimal_no_digit
      intro c hc hdig
      have hmem : c ∈ s4 := (List.filter_sublist _).subset hc
      rcases sepNormalize_chars _ c hmem with hin | hdot
      · have h2 := splitQualifier_subset _ c hin
        have h3 := pyStrip_subset _ c h2
        have h4 := scAux_subset false l c h3
        exact h c h4 hdig
      · rw [hdot] at hdig
        simp at hdig

theorem pfx_subset (p : List Char) : ∀ l : List Char, p.isPrefixOf l = true → ∀ c ∈ p, c ∈ l := by
  induction p with
  | nil => intro l _ c hc; cases hc
  | cons a p ih =>
    intro l h c hc
    cases l with
    | nil => cases h
    | cons b l =>
      simp only [List.isPrefixOf, Bool.and_eq_true, beq_iff_eq] at h
      rcases List.mem_cons.mp hc with rfl | hc2
      · rw [h.1]; exact List.mem_cons_self _ _
      · exact List.mem_cons_of_mem _ (ih l h.2 c hc2)

theorem containsSub_mem (pat l : List Char) (h : containsSub pat l = true) : ∀ c ∈ pat, c ∈ l := by
  induction l with
  | nil =>
    intro c hc
    rw [containsSub] at h
    rw [List.isEmpty_iff] at h
    rw [h] at hc
    cases hc
  | cons x rest ih =>
    intro c hc
    rw [containsSub, Bool.or_eq_true] at h
    rcases h with h | h
    · exact pfx_subset pat (x :: rest) h c hc
    · exact List.mem_cons_of_mem _ (ih h c hc)

theorem findSomeAppend (f : α → Option β) (l1 l2 : List α) :
    (l1 ++ l2).findSome? f =
      match l1.findSome? f with
      | some x => some x
      | none => l2.findSome? f := by
  induction l1 with
  | nil => simp [List.findSome?]
  | cons a rest ih =>
    rw [List.cons_append]
    rw [List.findSome?_cons, List.findSome?_cons]
    cases f a with
    | some x => rfl
    | none => exact ih

/-- The retry loop of one URL returns the first productive attempt before
any bot challenge. -/
theorem runTarget_eq (resolve : Option (List Char) → Option (List Char)) (maxR : Nat)
    (out : Nat → AttemptOutcome) (attList : List Nat) :
    runTarget resolve maxR out attList
      = ((untilCaptcha (attList.map out)).findSome? (productiveDoc resolve maxR)).map
          (fun doc => (extractGoogleProducts resolve doc maxR).take maxR) := by
  induction attList with
  | nil => rfl
  | cons a rest ih =>
    rw [runTarget, List.map_cons]
    cases hout : out a with
    | fail =>
      rw [untilCaptcha, List.findSome?_cons]
      exact ih
    | captcha =>
      rfl
    | page doc =>
      rw [untilCaptcha, List.findSome?_cons]
      by_cases hps : extractGoogleProducts resolve doc maxR = []
      · simp only [productiveDoc, hps, if_true, ite_true, reduceIte]
        exact ih
      · simp only [productiveDoc, hps, ite_false, if_false, reduceIte]
        rfl

/-- The counter-guarded extraction loop is a filterMap truncated to the
remaining budget. -/
theorem extractLoop_eq (resolve : Option (List Char) → Option (List Char)) (maxR : Nat)
    (els : List Element) : ∀ count : Nat,
    extractLoop resolve maxR els count
      = (els.filterMap (processElement resolve)).take (maxR - count) := by
  induction els with
  | nil => intro count; simp [extractLoop]
  | cons e rest ih =>
    intro count
    rw [extractLoop]
    by_cases hcnt : maxR ≤ count
    · rw [if_pos hcnt]
      rw [show maxR - count = 0 from Nat.sub_eq_zero_of_le hcnt]
      simp
    · rw [if_neg hcnt]
      cases hpe : processElement resolve e with
      | some p =>
        simp only [List.filterMap_cons, hpe]
        have hsub : maxR - count = (maxR - (count + 1)) + 1 := by omega
        rw [hsub, List.take_succ_cons, ih (count + 1)]
      | none =>
        simp only [List.filterMap_cons, hpe]
        exact ih count

/-- The container cascade picks the first selector with a nonempty
selection. -/
theorem selectContainers_eq (doc : Document) :
    selectContainers doc =
      match containerSelectors.find? (fun sel => !(doc.select sel).isEmpty) with
      | some sel => doc.select sel
      | none => [] := by
  unfold selectContainers
  generalize containerSelectors = ls
  induction ls with
  | nil => rfl
  | cons s rest ih =>
    rw [List.findSome?_cons, List.find?_cons]
    by_cases hs : (doc.select s).isEmpty
    · rw [if_pos hs]
      simp only [hs, Bool.not_true]
      exact ih
    · rw [if_neg hs]
      simp only [Bool.eq_false_iff.mpr hs, Bool.not_false]
      rfl

/-- An accepted candidate has a non-placeholder name and a price text
that normalized. -/
theorem processElement_accepts (resolve : Option (List Char) → Option (List Char))
    (e : Element) (p : Product) (h : processElement resolve e = some p) :
    ¬ extractFieldText e nameSelectors namePlaceholder = namePlaceholder
    ∧ ∃ q : ℚ, formatPrice (extractFieldText e priceSelectors pricePlaceholder) = some q := by
  unfold processElement at h
  dsimp only at h
  cases hp : formatPrice (extractFieldText e priceSelectors pricePlaceholder) with
  | none => rw [hp] at h; cases h
  | some q =>
    rw [hp] at h
    dsimp only at h
    by_cases hcond : ¬ q = 0 ∧ ¬ extractFieldText e nameSelectors namePlaceholder = namePlaceholder
    · exact ⟨hcond.2, q, rfl⟩
    · rw [if_neg hcond] at h; cases h

theorem freshHit_insert (cache : List (List Char × (ℚ × FormattedResults))) (k : List Char)
    (v : ℚ × FormattedResults) (now : ℚ) :
    freshHit (cacheInsert cache k v) k now = if qsub now v.1 < 300 then some v.2 else none := by
  unfold freshHit cacheLookup cacheInsert
  rw [List.find?_cons_of_pos _ (by simp)]
  rfl

/-- The embedded subtraction is subtraction on ℚ. -/
theorem qsub_eq_sub (a b : ℚ) : qsub a b = a - b := by
  rw [qsub, Rat.mkRat_eq_divInt]
  have ha : (a.den : Int) ≠ 0 := Int.natCast_ne_zero.mpr a.den_nz
  have hb : (b.den : Int) ≠ 0 := Int.natCast_ne_zero.mpr b.den_nz
  conv_rhs => rw [← Rat.num_divInt_den a, ← Rat.num_divInt_den b]
  rw [Rat.divInt_sub_divInt _ _ ha hb]
  norm_cast

/-- The embedded multiplication is multiplication on ℚ. -/
theorem qmul_eq_mul (a b : ℚ) : qmul a b = a * b := by
  rw [qmul, Rat.mkRat_eq_divInt]
  have ha : (a.den : Int) ≠ 0 := Int.natCast_ne_zero.mpr a.den_nz
  have hb : (b.den : Int) ≠ 0 := Int.natCast_ne_zero.mpr b.den_nz
  conv_rhs => rw [← Rat.num_divInt_den a, ← Rat.num_divInt_den b]
  rw [Rat.divInt_mul_divInt _ _ ha hb]
  norm_cast

theorem qinv_eq_inv (a : ℚ) : qinv a = a⁻¹ := by
  rw [show a⁻¹ = a.inv from rfl, Rat.inv_def, qinv]
  rcases lt_trichotomy a.num 0 with h | h | h
  · rw [if_pos h, Rat.mkRat_eq_divInt]
    rw [show (a.num.natAbs : Int) = -a.num from by omega]
    rw [show Rat.divInt (-(a.den : Int)) (-a.num) = Rat.divInt (a.den : Int) a.num from
      Rat.neg_divInt_neg _ _]
  · rw [if_neg (by omega), Rat.mkRat_eq_divInt]
    rw [show (a.num.natAbs : Int) = a.num from by omega]
  · rw [if_neg (by omega), Rat.mkRat_eq_divInt]
    rw [show (a.num.natAbs : Int) = a.num from by omega]

/-- The embedded division is division on ℚ. -/
theorem qdiv_eq_div (a b : ℚ) : qdiv a b = a / b := by
  rw [qdiv, qmul_eq_mul, qinv_eq_inv, div_eq_mul_inv]

/-! ## The claims -/

/-- C1.  For every list of scraped candidates, `_find_best_deals` selects
per source the first minimum-price candidate as the best deal of that source
(`pyMinBy` is characterized as the first element that is at most every
other), absence of candidates yielding `None` (the sentinel entry after
formatting); the overall best is the first minimum-price deal among the
non-sentinel per-source bests in configured source order.  In particular
for per-source best prices Google Shopping 100, Mercado Livre 80 and
Kabum without candidates, the overall best is the Mercado Livre deal at
price 80 and the formatted Kabum entry is the sentinel. -/
theorem c1_aggregation_minimum :
    (∀ rs : List Product,
      (findBestDeals rs).googleShopping
          = (firstMinBy (fun p => p.preco) (rs.filter (fun r => r.site = gsSite))).map dealOf
        ∧ (findBestDeals rs).mercadoLivre
          = (firstMinBy (fun p => p.preco) (rs.filter (fun r => r.site = mlSite))).map dealOf
        ∧ (findBestDeals rs).kabum
          = (firstMinBy (fun p => p.preco) (rs.filter (fun r => r.site = kbSite))).map dealOf
        ∧ (findBestDeals rs).melhorOferta
          = firstMinBy (fun d => d.preco) (validDeals (findBestDeals rs)))
    ∧ ((formatResults (findBestDeals rsTwo) ("tv".data)).bestOverall).map
        (fun b => (b.site, b.precoValor)) = some (mlSite, 80)
    ∧ (((formatResults (findBestDeals rsTwo) ("tv".data)).results.find?
        (fun e => e.1 = kbSite)).map (fun e => e.2)) = some sentinelEntry := by
  refine ⟨fun rs => ⟨?_, ?_, ?_, ?_⟩, by decide, by decide⟩
  · simp [findBestDeals, bestFor, pyMinBy_eq_firstMinBy]
  · simp [findBestDeals, bestFor, pyMinBy_eq_firstMinBy]
  · simp [findBestDeals, bestFor, pyMinBy_eq_firstMinBy]
  · simp [findBestDeals, bestFor, validDeals, pyMinBy_eq_firstMinBy]

/-- C2.  For every aggregated result, `best_overall` is null exactly when
every configured source produced no offer, and whenever it is non-null
its price is the minimum of the per-source best prices with the no-offer
sentinel read as `+infinity` (`optMin` over the `preco_valor` column). -/
theorem c2_best_overall_invariant (rs : List Product) (q : List Char) :
    ((formatResults (findBestDeals rs) q).bestOverall = none ↔
      ∀ e ∈ (formatResults (findBestDeals rs) q).results, e.2.precoValor = none)
    ∧ ∀ b, (formatResults (findBestDeals rs) q).bestOverall = some b →
        some b.precoValor =
          ((formatResults (findBestDeals rs) q).results.map (fun e => e.2.precoValor)).foldr
            optMin none := by
  obtain ⟨h1, h2⟩ := agg_min_core (bestFor rs gsSite) (bestFor rs mlSite) (bestFor rs kbSite)
  constructor
  · simp only [formatResults, findBestDeals, Option.map_eq_none']
    rw [h1]
    simp only [List.mem_cons, List.mem_singleton, forall_eq_or_imp, forall_eq,
      List.not_mem_nil, false_imp_iff, and_true, entryOf_precoValor, Option.map_eq_none']
    tauto
  · intro b hb
    simp only [formatResults, findBestDeals, Option.map_eq_some'] at hb
    obtain ⟨d, hd, rfl⟩ := hb
    simp only [formatResults, findBestDeals, List.map_cons, List.map_nil, List.foldr_cons,
      List.foldr_nil, entryOf_precoValor]
    exact h2 d hd

/-- C3 counterexample.  When two sources tie at the best price 80, a
second source did produce an offer, yet the reported savings is the
single-offer message `"Único preço disponível"` instead of the difference
to the runner-up (which would be 0). -/
theorem c3_savings_counterexample :
    ((formatResults (findBestDeals rsTie) ("tv".data)).bestOverall).map
      (fun b => b.economia) = some Savings.unique
    ∧ sitePrices (formatResults (findBestDeals rsTie) ("tv".data)) = [80, 80] := by
  constructor <;> decide

/-- C3 amended.  For every aggregated result with a non-null overall best
deal, the reported savings is the difference between the least per-source
best price strictly greater than the overall best price and the overall
best price (with the percentage against that runner-up), and the
single-offer message is reported exactly when no per-source best price
strictly exceeds the overall best price — in particular also when the
only other offers tie with the best, not only when one source offered. -/
theorem c3_savings_amended (rs : List Product) (q : List Char) (b : BestEntry)
    (hb : (formatResults (findBestDeals rs) q).bestOverall = some b) :
    b.economia =
      (match minExceeding (sitePrices (formatResults (findBestDeals rs) q)) b.precoValor with
        | none => Savings.unique
        | some sb =>
          Savings.economy (qsub sb b.precoValor) (qmul (qdiv (qsub sb b.precoValor) sb) 100))
    ∧ (b.economia = Savings.unique ↔
        ∀ p ∈ sitePrices (formatResults (findBestDeals rs) q), p ≤ b.precoValor) := by
  simp only [formatResults, Option.map_eq_some'] at hb
  obtain ⟨d, hd, rfl⟩ := hb
  simp only [formatResults, sitePrices]
  simp only [calculateSavings, minExceeding, savings_prices_eq]
  refine ⟨by trivial, ?_⟩
  cases hmin : pyMinBy id
      (((([(gsSite, entryOf (findBestDeals rs).googleShopping),
           (mlSite, entryOf (findBestDeals rs).mercadoLivre),
           (kbSite, entryOf (findBestDeals rs).kabum)]).filterMap
          (fun e => e.2.precoValor)).filter (fun p => d.preco < p))) with
  | none =>
    rw [pyMinBy_eq_none] at hmin
    simp only [hmin]
    constructor
    · intro _ p hp
      by_contra hlt
      have hmem : p ∈ (((([(gsSite, entryOf (findBestDeals rs).googleShopping),
           (mlSite, entryOf (findBestDeals rs).mercadoLivre),
           (kbSite, entryOf (findBestDeals rs).kabum)]).filterMap
          (fun e => e.2.precoValor)).filter (fun p => d.preco < p))) := by
        rw [List.mem_filter]
        exact ⟨hp, by simpa using not_le.mp hlt⟩
      rw [hmin] at hmem
      cases hmem
    · intro _
      trivial
  | some sb =>
    simp only [hmin]
    constructor
    · intro hc
      cases hc
    · intro hall
      exfalso
      have hsb := pyMinBy_mem id _ sb hmin
      rw [List.mem_filter] at hsb
      have hle := hall sb hsb.1
      have hlt : d.preco < sb := by simpa using hsb.2
      exact absurd hle (not_le.mpr hlt)

/-- C3 witness.  For best prices 100 and 80, the best deal is reported
with savings 20 (20 percent against the runner-up 100). -/
theorem c3_savings_witness :
    (formatResults (findBestDeals rsTwo) ("tv".data)).bestOverall = some bestTwo
    ∧ (bestTwo.economia =
        (match minExceeding (sitePrices (formatResults (findBestDeals rsTwo) ("tv".data)))
            bestTwo.precoValor with
          | none => Savings.unique
          | some sb =>
            Savings.economy (qsub sb bestTwo.precoValor)
              (qmul (qdiv (qsub sb bestTwo.precoValor) sb) 100))
      ∧ (bestTwo.economia = Savings.unique ↔
          ∀ p ∈ sitePrices (formatResults (findBestDeals rsTwo) ("tv".data)),
            p ≤ bestTwo.precoValor)) :=
  ⟨by decide, c3_savings_amended rsTwo ("tv".data) bestTwo (by decide)⟩

/-- C4 counterexample.  The separator rule of the spec replaces only the last
comma, so it parses `1.2,3,4` to 123.4; the code replaces every comma and
yields an absent price there. -/
theorem c4_normalizer_counterexample :
    formatPrice ("1.2,3,4".data) = none
    ∧ specNormalize ("1.2,3,4".data) = some (mkRat 1234 10) := by
  constructor <;> decide

/-- C4 amended.  The price normalizer satisfies the reference cases
`1.234,56` and `1,234.56` both to 1234.56, `R$ 99,90 à vista` to 99.90,
and the empty and digit-free inputs to absent; it is absent (never an
exception) on every input without a digit; separator disambiguation
compares the last comma with the last period, but in the comma-decimal
branch every comma (not only the last) becomes a period, so an input with
a second comma after the last period, such as `1.2,3,4`, yields absent. -/
theorem c4_normalizer_amended :
    formatPrice ("1.234,56".data) = some (mkRat 123456 100)
    ∧ formatPrice ("1,234.56".data) = some (mkRat 123456 100)
    ∧ formatPrice ("R$ 99,90 à vista".data) = some (mkRat 999 10)
    ∧ formatPrice [] = none
    ∧ formatPrice ("preço indisponível".data) = none
    ∧ (∀ l : List Char, (∀ c ∈ l, ¬ c.isDigit) → formatPrice l = none)
    ∧ formatPrice ("1.2,3,4".data) = none := by
  refine ⟨by decide, by decide, by decide, by decide, by decide, ?_, by decide⟩
  exact formatPrice_no_digit

/-- C5 counterexample.  The `adurl` value `https://images.google.com/x`
starts with a recognized scheme and its host differs from the search
engine host (`www.google.com`, and also from `google.com`), yet the
resolver does not return it — the code tests the substring condition
`google.com not in netloc` — and the original link comes back. -/
theorem c5_resolver_counterexample :
    (("http".data).isPrefixOf ("https://images.google.com/x".data)) = true
    ∧ urlNetloc ("https://images.google.com/x".data) = ("images.google.com".data)
    ∧ ¬ ("images.google.com".data) = ("www.google.com".data)
    ∧ ¬ ("images.google.com".data) = ("google.com".data)
    ∧ extractRealProductLink (fun _ => none) (some linkImages) = some linkImages.raw
    ∧ ¬ some linkImages.raw = some ("https://images.google.com/x".data) := by
  refine ⟨by decide, by decide, by decide, by decide, by decide, by decide⟩

/-- C5 amended.  For every indirection link (whose parsed path, as
`urlparse` guarantees, contains no `?`), the resolver returns the value
of the first query parameter in priority order adurl, url, q, imgrefurl
that starts with `http` and whose parsed netloc does not contain
`google.com` as a substring; otherwise it returns the original link
unchanged whatever the redirect probe would answer (the probe branch is
unreachable: its path test looks for `/url?` inside the query-free path);
absent input yields absent output. -/
theorem c5_resolver_amended (L : ParsedLink) (probe : List Char → Option (List Char))
    (hQ : ¬ '?' ∈ L.path) :
    extractRealProductLink probe (some L) = some ((paramScan L.query).getD L.raw)
    ∧ extractRealProductLink probe none = none := by
  constructor
  · unfold extractRealProductLink
    cases hscan : paramScan L.query with
    | some v => simp [hscan]
    | none =>
      simp only [hscan]
      rw [if_neg]
      · simp
      · rintro ⟨hnet, hurl | haclk⟩
        · exact hQ (containsSub_mem _ _ hurl '?' (by decide))
        · exact hQ (containsSub_mem _ _ haclk '?' (by decide))
  · rfl

/-- C5 witness.  On the parsed `adurl` link the resolver returns the
original link (its only parameter value fails the substring test, so the
scan is empty), and absent input yields absent output. -/
theorem c5_resolver_witness :
    ¬ '?' ∈ linkImages.path
    ∧ (extractRealProductLink (fun _ => none) (some linkImages)
        = some ((paramScan linkImages.query).getD linkImages.raw)
      ∧ extractRealProductLink (fun _ => none) none = none) :=
  ⟨by decide, c5_resolver_amended linkImages (fun _ => none) (by decide)⟩

/-- C6.  The per-source fetch loop equals its declarative reading: the
first attempt (in URL-major control-flow order, attempts after a
bot-challenge abort of the same URL being unreachable) whose extraction
yields at least one candidate returns that extraction truncated to
`max_results`, short-circuiting everything after it, and when no
reachable attempt is productive the result is the empty list — never an
error, as every network failure is an `AttemptOutcome` the loop absorbs. -/
theorem c6_fetch_loop (resolve : Option (List Char) → Option (List Char))
    (oracle : Nat → Nat → AttemptOutcome) (maxR : Nat) :
    searchGoogleShopping resolve oracle maxR = searchGoogleSpec resolve oracle maxR := by
  unfold searchGoogleShopping searchGoogleSpec attemptSeq
  rw [runUrls, runUrls, runUrls, runUrls]
  rw [runTarget_eq, runTarget_eq, runTarget_eq]
  rw [findSomeAppend, findSomeAppend]
  cases (untilCaptcha (List.map (oracle 0) [0, 1, 2])).findSome? (productiveDoc resolve maxR) <;>
    cases (untilCaptcha (List.map (oracle 1) [0, 1, 2])).findSome? (productiveDoc resolve maxR) <;>
    cases (untilCaptcha (List.map (oracle 2) [0, 1, 2])).findSome? (productiveDoc resolve maxR) <;>
    simp

/-- C7.  For every fetched document, extraction uses the first container
selector whose selection is nonempty for the entire document (the result
is the filterMap over exactly that selection, so containers of two
selectors never mix and one rejected container never aborts the others),
halts once `max_results` candidates are accepted (the take), and accepts
a candidate only if its name differs from the placeholder and its price
text normalized successfully. -/
theorem c7_extraction_cascade (resolve : Option (List Char) → Option (List Char))
    (doc : Document) (maxR : Nat) :
    (extractGoogleProducts resolve doc maxR
      = ((match containerSelectors.find? (fun sel => !(doc.select sel).isEmpty) with
          | some sel => doc.select sel
          | none => []).filterMap (processElement resolve)).take maxR)
    ∧ ∀ e p, processElement resolve e = some p →
        (¬ extractFieldText e nameSelectors namePlaceholder = namePlaceholder
          ∧ ∃ q : ℚ, formatPrice (extractFieldText e priceSelectors pricePlaceholder) = some q) := by
  constructor
  · rw [extractGoogleProducts, extractLoop_eq, selectContainers_eq, Nat.sub_zero]
  · exact fun e p h => processElement_accepts resolve e p h

/-- C8 counterexample.  A call arriving while another search is in flight
(the lock is held) is served from the fresh cache instead of failing with
Busy. -/
theorem c8_entry_counterexample :
    stBusyHit.lockHeld = true
    ∧ searchStep stBusyHit ("tv".data) 100 (fun _ => [])
      = ⟨SearchOutcome.success (formatResults (findBestDeals []) ("tv".data)), stBusyHit,
          false⟩ := by
  constructor <;> decide

/-- C8 amended.  The search entry point fails with InvalidQuery, leaving
the state untouched and calling no fetch, for every query that is blank
after trimming; and fails with Busy, equally without side effects and
without queuing, for every call that misses the fresh cache while another
search is in flight — a fresh cache hit, however, is served even then. -/
theorem c8_entry_amended (st : ApiState) (q : List Char) (now : ℚ)
    (fetch : List Char → List Product) :
    (pyStrip q = [] → searchStep st q now fetch = ⟨SearchOutcome.invalidQuery, st, false⟩)
    ∧ (¬ pyStrip q = [] → st.lockHeld = true → freshHit st.cache (normKey q) now = none →
        searchStep st q now fetch = ⟨SearchOutcome.busy, st, false⟩) := by
  constructor
  · intro h
    unfold searchStep
    rw [if_pos h]
  · intro hq hl hfr
    unfold searchStep
    rw [if_neg hq]
    dsimp only
    rw [show (pyStrip q).map pyLowerC = normKey q from rfl, hfr, hl]
    rfl

/-- C9.  After a search that ran the fetch pipeline, any repetition whose
trimmed lowercased query is the same key, within the 300-second TTL,
returns the identical stored result, changes nothing, and does not invoke
the fetch pipeline again. -/
theorem c9_cache_idempotence (st : ApiState) (q1 q2 : List Char) (t0 t : ℚ)
    (fetch1 fetch2 : List Char → List Product)
    (h1 : (searchStep st q1 t0 fetch1).fetchCalled = true)
    (h2 : normKey q2 = normKey q1)
    (h3 : qsub t t0 < 300) :
    searchStep (searchStep st q1 t0 fetch1).state q2 t fetch2
      = ⟨(searchStep st q1 t0 fetch1).outcome, (searchStep st q1 t0 fetch1).state, false⟩ := by
  have hb : ¬ pyStrip q1 = [] := by
    intro hb
    unfold searchStep at h1
    rw [if_pos hb] at h1
    cases h1
  have hfr : freshHit st.cache ((pyStrip q1).map pyLowerC) t0 = none := by
    cases hfr2 : freshHit st.cache ((pyStrip q1).map pyLowerC) t0 with
    | some r =>
      exfalso
      unfold searchStep at h1
      rw [if_neg hb] at h1
      dsimp only at h1
      rw [hfr2] at h1
      cases h1
    | none => rfl
  have hlock : st.lockHeld = false := by
    cases hlock2 : st.lockHeld
    · rfl
    · exfalso
      unfold searchStep at h1
      rw [if_neg hb] at h1
      dsimp only at h1
      rw [hfr] at h1
      rw [hlock2] at h1
      dsimp only at h1
      cases h1
  have hstep : searchStep st q1 t0 fetch1 =
      ⟨SearchOutcome.success (formatResults (findBestDeals (fetch1 (pyStrip q1))) (pyStrip q1)),
        ⟨cacheInsert st.cache ((pyStrip q1).map pyLowerC)
          (t0, formatResults (findBestDeals (fetch1 (pyStrip q1))) (pyStrip q1)), false⟩,
        true⟩ := by
    unfold searchStep
    rw [if_neg hb]
    dsimp only
    rw [hfr, hlock]
    rfl
  rw [hstep]
  have hq2 : ¬ pyStrip q2 = [] := by
    intro hq2
    have hnil : normKey q2 = [] := by simp [normKey, hq2]
    rw [h2] at hnil
    simp only [normKey, List.map_eq_nil_iff] at hnil
    exact hb hnil
  unfold searchStep
  rw [if_neg hq2]
  dsimp only
  rw [show (pyStrip q2).map pyLowerC = normKey q2 from rfl, h2,
    show normKey q1 = (pyStrip q1).map pyLowerC from rfl]
  rw [freshHit_insert]
  rw [if_pos h3]

/-- C9 witness.  Searching `TV` at time 0 runs the pipeline; searching
` tv ` at time 100 returns the identical stored result from the cache
without fetching. -/
theorem c9_cache_idempotence_witness :
    (searchStep ⟨[], false⟩ ("TV".data) 0
        (fun _ => [⟨("B".data), 80, none, mlSite⟩])).fetchCalled = true
    ∧ normKey (" tv ".data) = normKey ("TV".data)
    ∧ qsub 100 0 < 300
    ∧ searchStep (searchStep ⟨[], false⟩ ("TV".data) 0
          (fun _ => [⟨("B".data), 80, none, mlSite⟩])).state (" tv ".data) 100 (fun _ => [])
        = ⟨(searchStep ⟨[], false⟩ ("TV".data) 0
              (fun _ => [⟨("B".data), 80, none, mlSite⟩])).outcome,
            (searchStep ⟨[], false⟩ ("TV".data) 0
              (fun _ => [⟨("B".data), 80, none, mlSite⟩])).state, false⟩ :=
  ⟨by decide, by decide, by decide,
    c9_cache_idempotence ⟨[], false⟩ ("TV".data) (" tv ".data) 0 100
      (fun _ => [⟨("B".data), 80, none, mlSite⟩]) (fun _ => [])
      (by decide) (by decide) (by decide)⟩

/-- C10 counterexample.  The two price normalizers disagree on the
US-format string `1,234.56`: the simple one keeps only digits and commas
and reads 1.23456, the server one reads 1234.56. -/
theorem c10_normalizers_counterexample :
    ¬ formatPriceSimple ("1,234.56".data) = formatPrice ("1,234.56".data) := by
  decide

/-- C10 amended.  The two normalizer implementations agree on the
comma-decimal reference cases (`1.234,56`, `R$ 99,90 à vista`, the empty
and the digit-free input) but do not compute the same function: on
`1,234.56` the simple normalizer yields 1.23456 where the server one
yields 1234.56, so only inputs without period separators can be served
interchangeably by the two. -/
theorem c10_normalizers_amended :
    formatPriceSimple ("1.234,56".data) = formatPrice ("1.234,56".data)
    ∧ formatPriceSimple ("R$ 99,90 à vista".data) = formatPrice ("R$ 99,90 à vista".data)
    ∧ formatPriceSimple [] = formatPrice []
    ∧ formatPriceSimple ("preço indisponível".data) = formatPrice ("preço indisponível".data)
    ∧ formatPriceSimple ("1,234.56".data) = some (mkRat 123456 100000)
    ∧ formatPrice ("1,234.56".data) = some (mkRat 123456 100)
    ∧ ¬ formatPriceSimple ("1,234.56".data) = formatPrice ("1,234.56".data) := by
  refine ⟨by decide, by decide, by decide, by decide, by decide, by decide, by decide⟩

end ShopSpec
